import Mathlib

/-!
# nafder: pipe discovery and streaming supervisor

A shallow embedding of `main.go` and `log.go` of nafder.

* The global `cancelList` (a Go `map[string]context.CancelFunc`) is a function from
  paths to optional values; the mutex makes each registry operation one atomic step,
  so each operation is a function `World → result × World`.
* Effects (diagnostic log lines, text written by the application logger, invoked
  cancel functions, launched goroutines, sleeps) are appended to a trace.
* What the operating system answers (`os.Stat`, `os.OpenFile`, `ReadBytes`, the
  entries of the directory, each reading of the clock) is an explicit input.
* A Go runtime panic or a fatal exit is `Except.error`, with the state in which the
  process dies.
* A context is a number; its channel `Done()` is closed exactly when a call of its
  cancel function is in the trace.
* The parts of the Go standard library the program calls (`log.Logger`, `path.Base`,
  `os.Stat` results, `fsnotify` operations) are modelled after their documented
  behaviour; `path.Join` and the file system are parameters.
-/

namespace Nafder

/-! ## Values of the Go runtime and standard library -/

/-- A `context.CancelFunc` value: `none` is the nil function, `some i` is the cancel
function returned by the `i`-th call of `context.WithCancel`. -/
abbrev CancelFunc := Option Nat

/-- The bit `os.ModeNamedPipe` of a `FileMode`: `1 << (32 - 1 - 6)`. -/
def ModeNamedPipe : Nat := 2 ^ 25

/-- What `os.Stat` returns: a `FileInfo` and a nil error, or a nil `FileInfo` and an
error; `os.IsNotExist` holds for `notExist` only. -/
inductive StatResult where
  | ok (mode : Nat)
  | notExist
  | otherErr (msg : String)
  deriving DecidableEq

/-- `os.IsNotExist(err)` for the error of a stat result (false for a nil error). -/
def StatResult.isNotExist : StatResult → Bool
  | .notExist => true
  | _ => false

/-- One observable effect of the program. -/
inductive Event where
  | logDebug (msg : String)
  | logInfo (msg : String)
  | logErr (msg : String)
  | appMain (text : String)
  | appSub (text : String)
  | stdout (text : String)
  | cancel (ctx : Nat)
  | go (ctx : Nat) (pipe : String)
  | sleep (ms : Nat)
  | close (pipe : String)
  deriving DecidableEq

/-- `fmt.Sprintln` on string operands: operands separated by one space, then a newline. -/
def sprintln (args : List String) : String :=
  " ".intercalate args ++ "\n"

/-- The wall clock fields `log` prints. -/
structure Time where
  year : Nat
  month : Nat
  day : Nat
  hour : Nat
  min : Nat
  sec : Nat
  deriving DecidableEq

/-- Flag `log.Ldate`. -/
def Ldate : Nat := 1
/-- Flag `log.Ltime`. -/
def Ltime : Nat := 2
/-- Flag `log.Lmsgprefix`. -/
def Lmsgprefix : Nat := 64
/-- Flag `log.LstdFlags`. -/
def LstdFlags : Nat := Ldate ||| Ltime

/-- `itoa` of package `log`: decimal digits of `i`, zero padded to width `wid`. -/
def itoa (i wid : Nat) : String :=
  let d := Nat.toDigits 10 i
  String.mk (List.replicate (wid - d.length) '0' ++ d)

/-- `formatHeader` of package `log` for the flags this program sets
(`Ldate`, `Ltime`, `Lmsgprefix`). -/
def formatHeader (pfx : String) (flag : Nat) (t : Time) : String :=
  let buf := if flag &&& Lmsgprefix = 0 then pfx else ""
  let buf := if flag &&& Ldate ≠ 0 then
    buf ++ itoa t.year 4 ++ "/" ++ itoa t.month 2 ++ "/" ++ itoa t.day 2 ++ " " else buf
  let buf := if flag &&& Ltime ≠ 0 then
    buf ++ itoa t.hour 2 ++ ":" ++ itoa t.min 2 ++ ":" ++ itoa t.sec 2 ++ " " else buf
  if flag &&& Lmsgprefix ≠ 0 then buf ++ pfx else buf

/-- A `log.Logger`: its message header settings. What it writes is returned by
`Logger.Output`. -/
structure Logger where
  pfx : String
  flag : Nat
  deriving DecidableEq

/-- `(*log.Logger).Output`: header, message, and a newline when the message does not
end in one. The result is the text written to the logger's writer. -/
def Logger.Output (l : Logger) (now : Time) (s : String) : String :=
  let buf := formatHeader l.pfx l.flag now ++ s
  if s.data = [] ∨ s.data.getLast? ≠ some '\n' then buf ++ "\n" else buf

/-- `path.Base`: the last element of a path. -/
def pathBase (path : String) : String :=
  if path = "" then "." else
  let p := (path.data.reverse.dropWhile (fun c => c = '/')).reverse
  let q := (p.reverse.takeWhile (fun c => c ≠ '/')).reverse
  if q = [] then "/" else String.mk q

/-! ## log.go -/

/-- The struct `nafderLogger` of log.go. -/
structure nafderLogger where
  main : Logger
  sub : Option Logger
  isDebug : Bool
  pfx : String
  deriving DecidableEq

/-- `(*nafderLogger).Print` with one string operand. `file` and `line` are what
`runtime.Caller(1)` reports. `l.main.Print` (log.go 40) and `l.sub.Print` (log.go 45)
are two calls of `log`, each reading the clock itself: `now` is the reading of the
first, `nowSub` that of the second. Returns the logger (its headers may have been
reset), the text written by `main` and the text written by `sub` when there is one. -/
def nafderLogger.Print (l : nafderLogger) (file : String) (line : Nat) (now nowSub : Time)
    (s : String) : nafderLogger × String × Option String :=
  let main := if l.isDebug then
    { l.main with pfx := file ++ ":" ++ toString line ++ ": " ++ l.pfx } else l.main
  let outMain := main.Output now s
  match l.sub with
  | none => ({ l with main := main }, outMain, none)
  | some sub =>
    let sub := if l.isDebug then
      { sub with pfx := file ++ ":" ++ toString line ++ ": " ++ l.pfx } else sub
    ({ l with main := main, sub := some sub }, outMain, some (sub.Output nowSub s))

/-- `(*nafderLogger).EnableDebug`. -/
def nafderLogger.EnableDebug (l : nafderLogger) : nafderLogger :=
  { l with isDebug := true }

/-- `(*nafderLogger).EnableTimestamp`. -/
def nafderLogger.EnableTimestamp (l : nafderLogger) : nafderLogger :=
  { l with
    main := { l.main with flag := LstdFlags ||| Lmsgprefix }
    sub := l.sub.map (fun s => { s with flag := LstdFlags ||| Lmsgprefix }) }

/-- The application logger `logApp` after `init`, `openSubLogger` (`copy`: the copy file
was given and could be opened) and `handleEnv` (`time`: flag `-t`; `debug`: flag `-d` or
`NAFDER_DEBUG`). -/
def logAppConfig (debug time copy : Bool) : nafderLogger :=
  let l : nafderLogger :=
    { main := { pfx := "", flag := Lmsgprefix }, sub := none, isDebug := false, pfx := "" }
  let l := if copy then { l with sub := some { pfx := "", flag := Lmsgprefix } } else l
  let l := if time then l.EnableTimestamp else l
  if debug then l.EnableDebug else l

/-! ## main.go: the cancellation registry -/

/-- The Go map `cancelList`: absent keys are `none`. -/
abbrev CancelMap := String → Option CancelFunc

/-- The two-value index expression `v, haskey := m[k]`. -/
def CancelMap.commaOk (m : CancelMap) (k : String) : CancelFunc × Bool :=
  match m k with
  | some v => (v, true)
  | none => (none, false)

/-- The index expression `m[k]`: the zero value (nil) for an absent key. -/
def CancelMap.index (m : CancelMap) (k : String) : CancelFunc :=
  (m.commaOk k).1

/-- The assignment `m[k] = v`. -/
def CancelMap.set (m : CancelMap) (k : String) (v : CancelFunc) : CancelMap :=
  fun q => if q = k then some v else m q

/-- The builtin `delete(m, k)`. -/
def CancelMap.delete (m : CancelMap) (k : String) : CancelMap :=
  fun q => if q = k then none else m q

/-- The empty map made by `make`. -/
def CancelMap.empty : CancelMap := fun _ => none

/-- The mutable state of the process and the effects so far (oldest first). -/
structure World where
  cancelList : CancelMap
  nextCtx : Nat
  logApp : nafderLogger
  trace : List Event

/-- Append one effect to the trace. -/
def World.emit (w : World) (e : Event) : World :=
  { w with trace := w.trace ++ [e] }

/-- The contexts whose cancel function has been invoked, in order. -/
def cancelled (t : List Event) : List Nat :=
  t.filterMap (fun e => match e with | .cancel c => some c | _ => none)

/-- The goroutines `go addPrefix(ctx, pipe)` started, in order. -/
def launched (t : List Event) : List (Nat × String) :=
  t.filterMap (fun e => match e with | .go c p => some (c, p) | _ => none)

/-- `checkAndAddCancelList` (main.go 222-233), run under `cancelMutex`. -/
def checkAndAddCancelList (pipe : String) (cancel : CancelFunc) (w : World) : Bool × World :=
  if (w.cancelList.commaOk pipe).2 then
    (false, w.emit (.logDebug (sprintln [pipe, "is already added"])))
  else
    let w := w.emit (.logDebug (sprintln ["Adding", pipe, "into list"]))
    (true, { w with cancelList := w.cancelList.set pipe cancel })

/-- `checkAndDelCancelListAndCancel` (main.go 235-251), run under `cancelMutex`.
The map entry is deleted before `cancelList[pipe]` is read again. -/
def checkAndDelCancelListAndCancel (pipe : String) (w : World) : Bool × World :=
  let w := w.emit (.logDebug (sprintln ["Deleting and Canceling", pipe]))
  if (w.cancelList.commaOk pipe).2 then
    let w := { w with cancelList := w.cancelList.delete pipe }
    match w.cancelList.index pipe with
    | some c => (true, w.emit (.cancel c))
    | none => (true, w.emit (.logDebug (sprintln [pipe, "is already canceled"])))
  else
    (false, w.emit (.logDebug (sprintln [pipe, "already deleted"])))

/-! ## main.go: isPipe and the pipe reader -/

/-- The text of the runtime panic on a method call through a nil interface value. -/
def nilDereference : String :=
  "runtime error: invalid memory address or nil pointer dereference"

/-- `isPipe` (main.go 174-180). `st` is what `os.Stat(pipe)` returns. With a nil
`FileInfo` the call `p.Mode()` is a nil dereference, a runtime panic. `FileMode` is a
`uint32`. -/
def isPipe (st : StatResult) (pipe : String) (w : World) : Except String (Bool × World) :=
  let notPipe : Except String (Bool × World) :=
    .ok (false, w.emit (.logDebug (sprintln [pipe, "is not named pipe"])))
  if st.isNotExist then notPipe
  else match st with
    | .ok mode => if (mode % 2 ^ 32) &&& ModeNamedPipe ≤ 0 then notPipe else .ok (true, w)
    | _ => .error nilDereference

/-- What one iteration of the reader loop gets from the operating system: the answer of
`os.Stat(pipe)`, the result of `reader.ReadBytes`, and the clock as read by the main
and by the copy logger. -/
structure Obs where
  stat : StatResult
  read : String × Option String
  now : Time
  nowSub : Time

/-- Whether the reader has returned or is still in its loop when the observations end. -/
inductive Status where
  | returned
  | running
  deriving DecidableEq

/-- A call `logApp.Print(s)` at line `line` of `file`: the logger is updated and what its
`main` and `sub` loggers write is recorded. -/
def logAppPrint (file : String) (line : Nat) (now nowSub : Time) (s : String) (w : World) :
    World :=
  let r := w.logApp.Print file line now nowSub s
  let w := { w with logApp := r.1 }
  let w := w.emit (.appMain r.2.1)
  match r.2.2 with
  | some t => w.emit (.appSub t)
  | none => w

/-- The deferred calls of `addPrefix`, last registered first: `p.Close()`, then
`logInfo.Println("Closing", pipe)`. -/
def addPrefixDefers (pipe : String) (w : World) : World :=
  (w.emit (.close pipe)).emit (.logInfo (sprintln ["Closing", pipe]))

/-- The channel `ctx.Done()` of the context number `ctx` is closed: its cancel function
has been invoked. -/
def ctxDone (ctx : Nat) (w : World) : Bool :=
  decide (ctx ∈ cancelled w.trace)

/-- The `for` loop of `addPrefix` (main.go 196-219), one observation per iteration.
The `select` takes the case `<-ctx.Done()` when that channel is closed and the default
case otherwise. The `break` of line 216 stands inside the `select` statement and ends
that statement only: the loop body is then over and the loop goes on with the next
iteration. -/
def addPrefixLoop (file : String) (ctx : Nat) (pipe : String) :
    List Obs → World → Status × World
  | [], w => (.running, w)
  | o :: rest, w =>
    if ctxDone ctx w then (.returned, addPrefixDefers pipe w)
    else if o.stat.isNotExist then
      let w := w.emit (.logInfo (sprintln [pipe, "is deleted"]))
      let w := (checkAndDelCancelListAndCancel pipe w).2
      (.returned, addPrefixDefers pipe w)
    else if o.read.1.length = 0 then
      addPrefixLoop file ctx pipe rest (w.emit (.sleep 100))
    else match o.read.2 with
      | none =>
        addPrefixLoop file ctx pipe rest
          (logAppPrint file 212 o.now o.nowSub (pathBase pipe ++ " " ++ o.read.1) w)
      | some err =>
        addPrefixLoop file ctx pipe rest (w.emit (.stdout ("READ err: " ++ err ++ "\n")))

/-- `addPrefix` (main.go 182-220). `ctx` is the number of the context passed in,
`openErr` the error of `os.OpenFile`, `file` the path of main.go that `runtime.Caller`
reports, `obs` what the loop observes. -/
def addPrefix (file : String) (ctx : Nat) (openErr : Option String) (obs : List Obs)
    (pipe : String) (w : World) : Status × World :=
  match openErr with
  | some err =>
    let w := w.emit (.logErr (sprintln ["Open named pipe file error:", err]))
    (.returned, (checkAndDelCancelListAndCancel pipe w).2)
  | none =>
    let w := w.emit (.logInfo (sprintln ["Reading", pipe]))
    addPrefixLoop file ctx pipe obs w

/-! ## main.go: the directory scanner and the event watcher -/

/-- `context.WithCancel(context.Background())`: a fresh context number. -/
def withCancel (w : World) : Nat × World :=
  (w.nextCtx, { w with nextCtx := w.nextCtx + 1 })

/-- How a run of the scanner or of the watcher ends: `ok w` when it returns in state
`w`; `error (msg, w)` when a panic or a fatal exit ends the process in state `w`, which
holds everything done before (readers launched, entries registered). -/
abbrev Run := Except (String × World) World

/-- The world in which a run ends, returned or not. -/
def Run.world : Run → World
  | .ok w => w
  | .error (_, w) => w

/-- The body of the `range` loop of `parseDir` (main.go 259-267) over the entry names. -/
def parseDirLoop (join : String → String → String) (stat : String → StatResult)
    (dir : String) : List String → World → Run
  | [], w => .ok w
  | name :: rest, w =>
    match isPipe (stat (join dir name)) (join dir name) w with
    | .error e => .error (e, w)
    | .ok (false, w) => parseDirLoop join stat dir rest w
    | .ok (true, w) =>
      let w := w.emit (.logDebug (sprintln [dir, "has pipe", name]))
      let (ctx, w) := withCancel w
      let r := checkAndAddCancelList (join dir name) (some ctx) w
      if r.1 then parseDirLoop join stat dir rest (r.2.emit (.go ctx (join dir name)))
      else parseDirLoop join stat dir rest r.2

/-- The order `<=` of Go on file names: lexicographic by bytes, which for UTF-8 text is
lexicographic by characters. -/
def nameLE (a b : String) : Bool :=
  decide (a.data ≤ b.data)

/-- The sort by filename that `ioutil.ReadDir` applies to the entries it has read. -/
def sortNames (names : List String) : List String :=
  names.insertionSort (fun a b => nameLE a b = true)

/-- `ioutil.ReadDir`: it reads the names of the entries of the directory (`entries`, in
the order the directory holds them, or the error of reading) and returns them sorted by
filename. -/
def readDir (entries : Except String (List String)) : Except String (List String) :=
  entries.map sortNames

/-- `parseDir` (main.go 253-268). `join` is `path.Join`, `stat` the file system as
`os.Stat` sees it, `entries` what the directory holds (see `readDir`). An error of
`ioutil.ReadDir` is a panic. -/
def parseDir (join : String → String → String) (stat : String → StatResult)
    (entries : Except String (List String)) (dir : String) (w : World) : Run :=
  let w := w.emit (.logDebug (sprintln ["Parsing " ++ dir]))
  match readDir entries with
  | .error err => .error (err, w)
  | .ok files => parseDirLoop join stat dir files w

/-- The operation `fsnotify.Create`. -/
def opCreate : Nat := 1
/-- The operation `fsnotify.Remove`. -/
def opRemove : Nat := 4

/-- An `fsnotify.Event`. -/
structure FsEvent where
  name : String
  op : Nat
  deriving DecidableEq

/-- What the `select` of `handleInotify` receives. -/
inductive WatcherMsg where
  | event (e : FsEvent)
  | eventsClosed
  | error (err : String)
  | errorsClosed
  deriving DecidableEq

/-- The handling of one received event (main.go 287-298). -/
def handleEvent (stat : String → StatResult) (event : FsEvent) (w : World) : Run :=
  let w := if event.op = opRemove then (checkAndDelCancelListAndCancel event.name w).2 else w
  if event.op = opCreate then
    match isPipe (stat event.name) event.name w with
    | .error e => .error (e, w)
    | .ok (false, w) => .ok w
    | .ok (true, w) =>
      let w := w.emit (.logInfo (sprintln ["named pipe", event.name, "is created"]))
      let (ctx, w) := withCancel w
      let r := checkAndAddCancelList event.name (some ctx) w
      if r.1 then .ok (r.2.emit (.go ctx event.name)) else .ok r.2
  else .ok w

/-- The loop of `handleInotify` (main.go 280-305) over the received messages. A closed
channel returns; an error of the watcher is logged and fatal (`logErr.Fatalln`). -/
def handleInotify (stat : String → StatResult) : List WatcherMsg → World → Run
  | [], w => .ok w
  | .event e :: rest, w =>
    match handleEvent stat e w with
    | .error err => .error err
    | .ok w => handleInotify stat rest w
  | .eventsClosed :: _, w => .ok w
  | .errorsClosed :: _, w => .ok w
  | .error err :: _, w =>
    .error (sprintln ["fsnotify error:", err], w.emit (.logErr (sprintln ["fsnotify error:", err])))

/-! ## Definitions used to state the properties -/

/-- The classification the specification uses: the stat succeeded and the named-pipe
bit (bit 25) of the mode is set. -/
def StatResult.namedPipe : StatResult → Bool
  | .ok mode => mode.testBit 25
  | _ => false

/-- The stat failed with an error other than "does not exist". -/
def StatResult.isOtherErr : StatResult → Bool
  | .otherErr _ => true
  | _ => false

/-- Lines 262-265 and 293-296 of main.go, shared by the scanner and the watcher: make a
context, try to register its cancel function under `p`, launch the reader on success. -/
def tryLaunch (p : String) (w : World) : World :=
  let r := checkAndAddCancelList p (some (withCancel w).1) (withCancel w).2
  if r.1 then r.2.emit (.go (withCancel w).1 p) else r.2

/-- A file system as concrete input: `/pipes/app1` and `/pipes/app2` are named pipes,
`/pipes/notes.txt` is a regular file, `/pipes/aloop` is a symbolic link to itself (its
stat fails with ELOOP), and nothing else exists. -/
def statDemo : String → StatResult := fun p =>
  if p = "/pipes/app1" ∨ p = "/pipes/app2" then .ok (ModeNamedPipe ||| 0o644)
  else if p = "/pipes/notes.txt" then .ok 0o644
  else if p = "/pipes/aloop" then .otherErr "too many levels of symbolic links"
  else .notExist

/-- What `path.Join` gives for a clean directory path and the name of an entry. -/
def joinDemo : String → String → String := fun dir name => dir ++ "/" ++ name

/-- The date and time `log` writes under `LstdFlags`: `2006/01/02 15:04:05 `. -/
def stamp (t : Time) : String :=
  itoa t.year 4 ++ "/" ++ itoa t.month 2 ++ "/" ++ itoa t.day 2 ++ " " ++
    itoa t.hour 2 ++ ":" ++ itoa t.min 2 ++ ":" ++ itoa t.sec 2 ++ " "

/-- What precedes the message in a line of the application logger: the date and time
when the timestamp is on, then the location of the caller when debug is on. -/
def appHeader (debug time : Bool) (file : String) (now : Time) : String :=
  (if time then stamp now else "") ++ (if debug then file ++ ":212: " else "")

/-- The flags of the application logger. -/
def appFlag (time : Bool) : Nat :=
  if time then LstdFlags ||| Lmsgprefix else Lmsgprefix

/-- The states of `logApp` during a run under a given configuration: the headers of
`main` and `sub` are empty until debug sets them at a call of `Print`. -/
def isLogApp (debug time copy : Bool) (l : nafderLogger) : Prop :=
  l.isDebug = debug ∧ l.pfx = "" ∧ l.main.flag = appFlag time ∧
    (debug = false → l.main.pfx = "") ∧ l.sub.isSome = copy ∧
    ∀ s, l.sub = some s → s.flag = appFlag time ∧ (debug = false → s.pfx = "")

/-- A registry that serves as concrete input: `/pipes/app1` is registered with the
cancel function of context 0. -/
def worldOne : World :=
  { cancelList := CancelMap.empty.set "/pipes/app1" (some 0)
    nextCtx := 1
    logApp := logAppConfig false false false
    trace := [] }

/-- The state right after `main` has made the map: nothing registered, nothing logged. -/
def worldEmpty : World :=
  { cancelList := CancelMap.empty
    nextCtx := 0
    logApp := logAppConfig false false false
    trace := [] }

/-- A moment that serves as concrete input: 2021-03-04 05:06:07. -/
def timeDemo : Time := ⟨2021, 3, 4, 5, 6, 7⟩

/-- The empty registry with the application logger configured for debug output. -/
def worldDebug : World :=
  { worldEmpty with logApp := logAppConfig true false false }

/-- The moment one second after `timeDemo`. -/
def timeLater : Time := ⟨2021, 3, 4, 5, 6, 8⟩

/-- An observation of the reader loop: the pipe exists, the read returned `line` with
error `err`, and the clock passed a second between the two loggers. -/
def obsRead (line : String) (err : Option String) : Obs :=
  { stat := .ok (ModeNamedPipe ||| 0o644), read := (line, err), now := timeDemo,
    nowSub := timeLater }

/-- An observation of the reader loop: the pipe is gone. -/
def obsGone : Obs :=
  { stat := .notExist, read := ("", some "EOF"), now := timeDemo, nowSub := timeDemo }

/-- The registry of `worldOne` with every header option of the application logger on,
after another reader has printed a line (the logger is shared by all readers). -/
def worldStamped : World :=
  { worldOne with
    logApp := ((logAppConfig true true true).Print "/src/main.go" 212 timeDemo timeDemo
      "app2 x\n").1 }

/-! ## Lemmas on the registry operations -/

/-- Logging does not touch the registry. -/
theorem emit_cancelList (w : World) (e : Event) : (w.emit e).cancelList = w.cancelList := rfl

/-- Logging appends to the trace. -/
theorem emit_trace (w : World) (e : Event) : (w.emit e).trace = w.trace ++ [e] := rfl

/-- The second value of `v, haskey := m[k]` tells whether `k` has an entry. -/
theorem commaOk_snd (m : CancelMap) (k : String) : (m.commaOk k).2 = (m k).isSome := by
  unfold CancelMap.commaOk
  cases m k <;> rfl

/-- Reading `m[k]` after `delete(m, k)` gives the nil function. -/
theorem index_delete (m : CancelMap) (k : String) : (m.delete k).index k = none := by
  simp [CancelMap.index, CancelMap.commaOk, CancelMap.delete]

/-- The invoked cancel functions of a concatenated trace. -/
theorem cancelled_append (a b : List Event) : cancelled (a ++ b) = cancelled a ++ cancelled b := by
  simp [cancelled]

/-- The launched readers of a concatenated trace. -/
theorem launched_append (a b : List Event) : launched (a ++ b) = launched a ++ launched b := by
  simp [launched]

/-- The result of `checkAndAddCancelList`: true exactly when the path had no entry. -/
theorem add_fst (p : String) (c : CancelFunc) (w : World) :
    (checkAndAddCancelList p c w).1 = !(w.cancelList p).isSome := by
  unfold checkAndAddCancelList
  rw [commaOk_snd]
  cases h : (w.cancelList p).isSome <;> simp [h]

/-- The registry after `checkAndAddCancelList`. -/
theorem add_cancelList (p : String) (c : CancelFunc) (w : World) :
    (checkAndAddCancelList p c w).2.cancelList =
      if (w.cancelList p).isSome then w.cancelList else w.cancelList.set p c := by
  unfold checkAndAddCancelList
  rw [commaOk_snd]
  cases h : (w.cancelList p).isSome <;> simp [h, World.emit]

/-- The operation `checkAndAddCancelList` invokes no cancel function. -/
theorem add_cancelled (p : String) (c : CancelFunc) (w : World) :
    cancelled (checkAndAddCancelList p c w).2.trace = cancelled w.trace := by
  unfold checkAndAddCancelList
  cases h : (w.cancelList.commaOk p).2 <;> simp [h, World.emit, cancelled]

/-- The operation `checkAndAddCancelList` itself launches nothing. -/
theorem add_launched (p : String) (c : CancelFunc) (w : World) :
    launched (checkAndAddCancelList p c w).2.trace = launched w.trace := by
  unfold checkAndAddCancelList
  cases h : (w.cancelList.commaOk p).2 <;> simp [h, World.emit, launched]

/-- The result of `checkAndDelCancelListAndCancel`: true exactly when the path had an entry. -/
theorem del_fst (p : String) (w : World) :
    (checkAndDelCancelListAndCancel p w).1 = (w.cancelList p).isSome := by
  unfold checkAndDelCancelListAndCancel
  simp only [commaOk_snd, emit_cancelList, index_delete]
  cases h : (w.cancelList p).isSome <;> simp [h]

/-- The registry after `checkAndDelCancelListAndCancel`: the entry of the path is gone. -/
theorem del_cancelList (p : String) (w : World) :
    (checkAndDelCancelListAndCancel p w).2.cancelList = w.cancelList.delete p := by
  unfold checkAndDelCancelListAndCancel
  simp only [commaOk_snd, emit_cancelList, index_delete]
  cases h : (w.cancelList p).isSome
  · funext q
    simp only [h, World.emit, CancelMap.delete]
    by_cases hq : q = p
    · subst hq; simpa using h
    · simp [hq]
  · simp [h, World.emit]

/-- In every state `checkAndDelCancelListAndCancel` invokes no cancel function. -/
theorem del_cancelled (p : String) (w : World) :
    cancelled (checkAndDelCancelListAndCancel p w).2.trace = cancelled w.trace := by
  unfold checkAndDelCancelListAndCancel
  simp only [commaOk_snd, emit_cancelList, index_delete]
  cases h : (w.cancelList p).isSome <;> simp [h, World.emit, cancelled]

/-- The operation `checkAndDelCancelListAndCancel` launches nothing. -/
theorem del_launched (p : String) (w : World) :
    launched (checkAndDelCancelListAndCancel p w).2.trace = launched w.trace := by
  unfold checkAndDelCancelListAndCancel
  simp only [commaOk_snd, emit_cancelList, index_delete]
  cases h : (w.cancelList p).isSome <;> simp [h, World.emit, launched]

/-- The operation `checkAndDelCancelListAndCancel` leaves the application logger alone. -/
theorem del_logApp (p : String) (w : World) :
    (checkAndDelCancelListAndCancel p w).2.logApp = w.logApp := by
  unfold checkAndDelCancelListAndCancel
  simp only [commaOk_snd, emit_cancelList, index_delete]
  cases h : (w.cancelList p).isSome <;> simp [h, World.emit]

/-- Deleting an absent key changes nothing. -/
theorem delete_of_none (m : CancelMap) (q : String) (h : m q = none) : m.delete q = m := by
  funext k
  simp only [CancelMap.delete]
  by_cases hk : k = q
  · subst hk; simp [h]
  · simp [hk]

/-! ## Lemmas on isPipe -/

/-- The test `(p.Mode() & os.ModeNamedPipe) <= 0` on a `uint32` mode is the test of bit 25. -/
theorem mode_and_pipe (mode : Nat) :
    ((mode % 2 ^ 32) &&& ModeNamedPipe ≤ 0) ↔ mode.testBit 25 = false := by
  unfold ModeNamedPipe
  rw [Nat.and_two_pow, Nat.testBit_mod_two_pow]
  cases h : mode.testBit 25 <;> simp

/-- When the stat succeeds or reports "does not exist", `isPipe` returns the
classification of the specification, and logs when it is false. -/
theorem isPipe_of_stat (st : StatResult) (pipe : String) (w : World)
    (h : st.isOtherErr = false) :
    isPipe st pipe w = .ok (st.namedPipe,
      if st.namedPipe then w else w.emit (.logDebug (sprintln [pipe, "is not named pipe"]))) := by
  cases st with
  | ok mode =>
    unfold isPipe
    simp only [StatResult.isNotExist, StatResult.namedPipe, Bool.false_eq_true, if_false]
    by_cases hb : mode.testBit 25 = true
    · have : ¬ ((mode % 2 ^ 32) &&& ModeNamedPipe ≤ 0) := by
        rw [mode_and_pipe]; simp [hb]
      rw [if_neg this]; simp [hb]
    · have : (mode % 2 ^ 32) &&& ModeNamedPipe ≤ 0 := by
        rw [mode_and_pipe]; simpa using hb
      rw [if_pos this]; simp [hb]
  | notExist => simp [isPipe, StatResult.isNotExist, StatResult.namedPipe]
  | otherErr msg => simp [StatResult.isOtherErr] at h

/-- When the stat fails with another error, `isPipe` panics. -/
theorem isPipe_otherErr (msg pipe : String) (w : World) :
    isPipe (.otherErr msg) pipe w = .error nilDereference := by
  simp [isPipe, StatResult.isNotExist]

/-! ## Lemmas on the scanner and the watcher -/

/-- The registry after the register-and-launch code. -/
theorem tryLaunch_cancelList (p : String) (w : World) :
    (tryLaunch p w).cancelList
      = if (w.cancelList p).isSome then w.cancelList else w.cancelList.set p (some w.nextCtx) := by
  unfold tryLaunch
  simp only [add_fst]
  cases h : (w.cancelList p).isSome <;> simp [h, add_cancelList, withCancel, World.emit]

/-- The register-and-launch code launches one reader when the path had no entry, none
otherwise. -/
theorem tryLaunch_launched (p : String) (w : World) :
    launched (tryLaunch p w).trace
      = launched w.trace ++ (if (w.cancelList p).isSome then [] else [(w.nextCtx, p)]) := by
  unfold tryLaunch
  simp only [add_fst, withCancel]
  cases h : (w.cancelList p).isSome
  · simp only [h, Bool.not_false, if_true, emit_trace, launched_append, add_launched]
    simp [launched]
  · simp only [h, Bool.not_true, Bool.false_eq_true, if_false, add_launched]
    simp

/-- The register-and-launch code invokes no cancel function. -/
theorem tryLaunch_cancelled (p : String) (w : World) :
    cancelled (tryLaunch p w).trace = cancelled w.trace := by
  unfold tryLaunch
  simp only [add_fst, withCancel]
  cases h : (w.cancelList p).isSome
  · simp only [h, Bool.not_false, if_true, emit_trace, cancelled_append, add_cancelled]
    simp [cancelled]
  · simp only [h, Bool.not_true, Bool.false_eq_true, if_false, add_cancelled]

/-- A create event for a named pipe runs the register-and-launch code. -/
theorem handleEvent_create (stat : String → StatResult) (p : String) (w : World)
    (hp : (stat p).namedPipe = true) :
    handleEvent stat ⟨p, opCreate⟩ w = .ok
      (tryLaunch p (w.emit (.logInfo (sprintln ["named pipe", p, "is created"])))) := by
  have hs : (stat p).isOtherErr = false := by
    cases h : stat p <;> simp_all [StatResult.namedPipe, StatResult.isOtherErr]
  simp only [handleEvent, opRemove, opCreate]
  rw [if_pos trivial, if_neg (show ¬ (1 : Nat) = 4 by decide), isPipe_of_stat _ _ _ hs, hp]
  simp only [if_true, tryLaunch]
  split <;> rfl

/-- A remove event runs `checkAndDelCancelListAndCancel`. -/
theorem handleEvent_remove (stat : String → StatResult) (p : String) (w : World) :
    handleEvent stat ⟨p, opRemove⟩ w = .ok (checkAndDelCancelListAndCancel p w).2 := by
  simp [handleEvent, opRemove, opCreate]

/-- One iteration of the scanner on an entry whose stat does not fail with another error. -/
theorem parseDirLoop_cons (join : String → String → String) (stat : String → StatResult)
    (dir name : String) (rest : List String) (w : World)
    (hs : (stat (join dir name)).isOtherErr = false) :
    parseDirLoop join stat dir (name :: rest) w =
      if (stat (join dir name)).namedPipe then
        parseDirLoop join stat dir rest
          (tryLaunch (join dir name) (w.emit (.logDebug (sprintln [dir, "has pipe", name]))))
      else
        parseDirLoop join stat dir rest
          (w.emit (.logDebug (sprintln [join dir name, "is not named pipe"]))) := by
  rw [parseDirLoop, isPipe_of_stat _ _ _ hs]
  cases h : (stat (join dir name)).namedPipe
  · simp
  · simp only [if_true, tryLaunch]
    split <;> rfl

/-- One iteration of the scanner on an entry whose stat fails with another error: a panic. -/
theorem parseDirLoop_cons_panic (join : String → String → String) (stat : String → StatResult)
    (dir name : String) (rest : List String) (w : World)
    (hs : (stat (join dir name)).isOtherErr = true) :
    parseDirLoop join stat dir (name :: rest) w = .error (nilDereference, w) := by
  cases h : stat (join dir name) with
  | otherErr msg => rw [parseDirLoop, h, isPipe_otherErr]
  | ok mode => simp [h, StatResult.isOtherErr] at hs
  | notExist => simp [h, StatResult.isOtherErr] at hs

/-- The scanner loop on entries that can all be stat'ed or have vanished: it returns,
the registry gains exactly the named pipes of the listing, existing entries are kept,
no cancel function is invoked, and (for distinct paths) the launched readers are those
of the named pipes that had no entry. -/
theorem parseDirLoop_spec (join : String → String → String) (stat : String → StatResult)
    (dir : String) : ∀ (files : List String) (w : World),
    (∀ name ∈ files, (stat (join dir name)).isOtherErr = false) →
    ∃ w1, parseDirLoop join stat dir files w = .ok w1 ∧
      (∀ q, (w1.cancelList q).isSome
        = ((w.cancelList q).isSome || (decide (q ∈ files.map (join dir)) && (stat q).namedPipe))) ∧
      (∀ q, (w.cancelList q).isSome = true → w1.cancelList q = w.cancelList q) ∧
      cancelled w1.trace = cancelled w.trace ∧
      ((files.map (join dir)).Nodup →
        (launched w1.trace).map Prod.snd = (launched w.trace).map Prod.snd ++
          (files.map (join dir)).filter
            (fun q => (stat q).namedPipe && !(w.cancelList q).isSome)) ∧
      ∃ l, launched w1.trace = launched w.trace ++ l := by
  intro files
  induction files with
  | nil =>
    intro w _
    exact ⟨w, rfl, by simp, by simp, rfl, by simp, [], by simp⟩
  | cons name rest ih =>
    intro w hstat
    have hs : (stat (join dir name)).isOtherErr = false := hstat name (List.mem_cons_self _ _)
    have hrest : ∀ n ∈ rest, (stat (join dir n)).isOtherErr = false :=
      fun n hn => hstat n (List.mem_cons_of_mem _ hn)
    rw [parseDirLoop_cons join stat dir name rest w hs]
    cases hp : (stat (join dir name)).namedPipe
    · -- not a named pipe
      simp only [Bool.false_eq_true, if_false]
      obtain ⟨w1, hrun, hkeys, hkeep, hcan, hlaunch, l, hl⟩ :=
        ih (w.emit (.logDebug (sprintln [join dir name, "is not named pipe"]))) hrest
      refine ⟨w1, hrun, ?_, ?_, ?_, ?_, l, ?_⟩
      rotate_right
      · rw [hl]; simp [World.emit, launched]
      · intro q
        rw [hkeys q, emit_cancelList]
        by_cases hq : q = join dir name
        · subst hq; simp [hp]
        · simp [hq]
      · intro q hq
        rw [hkeep q (by rw [emit_cancelList]; exact hq), emit_cancelList]
      · rw [hcan]; simp [World.emit, cancelled]
      · intro hnd
        rw [List.map_cons, List.nodup_cons] at hnd
        rw [hlaunch hnd.2, List.map_cons, List.filter_cons_of_neg (by simp [hp])]
        simp [World.emit, launched]
    · -- a named pipe
      simp only [if_true]
      obtain ⟨w1, hrun, hkeys, hkeep, hcan, hlaunch, l, hl⟩ :=
        ih (tryLaunch (join dir name) (w.emit (.logDebug (sprintln [dir, "has pipe", name]))))
          hrest
      have hW : ∀ q, (tryLaunch (join dir name)
          (w.emit (.logDebug (sprintln [dir, "has pipe", name])))).cancelList q
            = if (w.cancelList (join dir name)).isSome then w.cancelList q
              else if q = join dir name then some (some w.nextCtx) else w.cancelList q := by
        intro q
        rw [tryLaunch_cancelList, emit_cancelList]
        cases h : (w.cancelList (join dir name)).isSome <;> simp [CancelMap.set, World.emit]
      refine ⟨w1, hrun, ?_, ?_, ?_, ?_,
        (if (w.cancelList (join dir name)).isSome then [] else [(w.nextCtx, join dir name)]) ++ l,
        ?_⟩
      rotate_right
      · rw [hl, tryLaunch_launched, List.append_assoc]
        simp [World.emit, launched]
      · intro q
        rw [hkeys q, hW q]
        by_cases hq : q = join dir name
        · subst hq
          cases h : (w.cancelList (join dir name)).isSome <;> simp [hp, h]
        · cases h : (w.cancelList (join dir name)).isSome <;> simp [hq, h]
      · intro q hq
        have hWq : (tryLaunch (join dir name)
            (w.emit (.logDebug (sprintln [dir, "has pipe", name])))).cancelList q
              = w.cancelList q := by
          rw [hW q]
          by_cases hqp : q = join dir name
          · subst hqp; simp [hq]
          · simp [hqp]
        rw [hkeep q (by rw [hWq]; exact hq), hWq]
      · rw [hcan, tryLaunch_cancelled]; simp [World.emit, cancelled]
      · intro hnd
        rw [List.map_cons, List.nodup_cons] at hnd
        rw [hlaunch hnd.2, tryLaunch_launched, emit_cancelList, List.map_cons]
        have hfilter : (rest.map (join dir)).filter (fun q => (stat q).namedPipe &&
            !((tryLaunch (join dir name)
              (w.emit (.logDebug (sprintln [dir, "has pipe", name])))).cancelList q).isSome)
            = (rest.map (join dir)).filter
              (fun q => (stat q).namedPipe && !(w.cancelList q).isSome) := by
          apply List.filter_congr
          intro q hq
          have hne : q ≠ join dir name := fun h => hnd.1 (h ▸ hq)
          rw [hW q]
          simp [hne]
        rw [hfilter]
        cases h : (w.cancelList (join dir name)).isSome
        · rw [List.filter_cons_of_pos (by simp [hp, h])]
          simp [World.emit, launched]
        · rw [List.filter_cons_of_neg (by simp [hp, h])]
          simp [World.emit, launched]

/-- A run of `parseDir` whose listing succeeded is the loop after one log line. -/
theorem parseDir_ok (join : String → String → String) (stat : String → StatResult)
    (dir : String) (entries : List String) (w : World) :
    parseDir join stat (.ok entries) dir w
      = parseDirLoop join stat dir (sortNames entries)
          (w.emit (.logDebug (sprintln ["Parsing " ++ dir]))) :=
  rfl

/-- Sorting keeps the entries. -/
theorem sortNames_perm (entries : List String) : (sortNames entries).Perm entries :=
  List.perm_insertionSort _ entries

/-! ## Lemmas on the pipe reader and the application logger -/

/-- The deferred calls do not touch the registry. -/
theorem defers_cancelList (pipe : String) (w : World) :
    (addPrefixDefers pipe w).cancelList = w.cancelList := rfl

/-- Printing a line does not touch the registry. -/
theorem logAppPrint_cancelList (file : String) (line : Nat) (now nowSub : Time) (s : String)
    (w : World) : (logAppPrint file line now nowSub s w).cancelList = w.cancelList := by
  unfold logAppPrint
  simp only []
  split <;> rfl

/-- The application logger after printing a line. -/
theorem logAppPrint_logApp (file : String) (line : Nat) (now nowSub : Time) (s : String)
    (w : World) :
    (logAppPrint file line now nowSub s w).logApp = (w.logApp.Print file line now nowSub s).1 := by
  unfold logAppPrint
  simp only []
  split <;> rfl

/-- The trace after printing a line: what `main` wrote, then what `sub` wrote. -/
theorem logAppPrint_trace (file : String) (line : Nat) (now nowSub : Time) (s : String)
    (w : World) :
    (logAppPrint file line now nowSub s w).trace = w.trace ++
      (.appMain (w.logApp.Print file line now nowSub s).2.1 ::
        match (w.logApp.Print file line now nowSub s).2.2 with
        | some t => [.appSub t]
        | none => []) := by
  unfold logAppPrint
  simp only []
  split <;> rename_i h <;> simp [h, World.emit]

/-- Printing a line invokes no cancel function. -/
theorem logAppPrint_cancelled (file : String) (line : Nat) (now nowSub : Time) (s : String)
    (w : World) : cancelled (logAppPrint file line now nowSub s w).trace = cancelled w.trace := by
  rw [logAppPrint_trace, cancelled_append]
  split <;> simp [cancelled]

/-- The deferred calls invoke no cancel function. -/
theorem defers_cancelled (pipe : String) (w : World) :
    cancelled (addPrefixDefers pipe w).trace = cancelled w.trace := by
  simp [addPrefixDefers, World.emit, cancelled]

/-- The reader loop invokes no cancel function. -/
theorem addPrefixLoop_cancelled (file : String) (ctx : Nat) (pipe : String) :
    ∀ (obs : List Obs) (w : World),
      cancelled (addPrefixLoop file ctx pipe obs w).2.trace = cancelled w.trace := by
  intro obs
  induction obs with
  | nil => intro w; rfl
  | cons o rest ih =>
    intro w
    cases hd : ctxDone ctx w
    · cases hs : o.stat.isNotExist
      · by_cases hlen : o.read.1.length = 0
        · simp only [addPrefixLoop, hd, hs, hlen, Bool.false_eq_true, if_false, if_true]
          rw [ih]; simp [World.emit, cancelled]
        · cases hr : o.read.2 with
          | none =>
            simp only [addPrefixLoop, hd, hs, hlen, hr, Bool.false_eq_true, if_false]
            rw [ih, logAppPrint_cancelled]
          | some err =>
            simp only [addPrefixLoop, hd, hs, hlen, hr, Bool.false_eq_true, if_false]
            rw [ih]; simp [World.emit, cancelled]
      · simp only [addPrefixLoop, hd, hs, Bool.false_eq_true, if_false, if_true]
        rw [defers_cancelled, del_cancelled]
        simp [World.emit, cancelled]
    · simp only [addPrefixLoop, hd, if_true]
      rw [defers_cancelled]

/-- Whether the context is cancelled depends on the invoked cancel functions only. -/
theorem ctxDone_congr (ctx : Nat) (w v : World) (h : cancelled v.trace = cancelled w.trace) :
    ctxDone ctx v = ctxDone ctx w := by
  simp [ctxDone, h]

/-- With the context cancelled the loop returns in its first iteration and leaves the
registry alone. -/
theorem addPrefixLoop_done (file : String) (ctx : Nat) (pipe : String) (o : Obs)
    (rest : List Obs) (w : World) (h : ctxDone ctx w = true) :
    addPrefixLoop file ctx pipe (o :: rest) w = (.returned, addPrefixDefers pipe w) := by
  simp [addPrefixLoop, h]

/-- With the context not cancelled the reader loop returns at the first observation of
a vanished pipe, and only there; the registry then loses the entry of the pipe and is
unchanged otherwise. -/
theorem addPrefixLoop_registry (file : String) (ctx : Nat) (pipe : String) :
    ∀ (obs : List Obs) (w : World), ctxDone ctx w = false →
    match obs.find? (fun o => o.stat.isNotExist) with
    | none => (addPrefixLoop file ctx pipe obs w).1 = .running ∧
        (addPrefixLoop file ctx pipe obs w).2.cancelList = w.cancelList
    | some _ => (addPrefixLoop file ctx pipe obs w).1 = .returned ∧
        (addPrefixLoop file ctx pipe obs w).2.cancelList = w.cancelList.delete pipe := by
  intro obs
  induction obs with
  | nil => intro w _; simp [addPrefixLoop]
  | cons o rest ih =>
    intro w hd
    cases hs : o.stat.isNotExist
    · have hfind : (o :: rest).find? (fun o => o.stat.isNotExist)
          = rest.find? (fun o => o.stat.isNotExist) := by
        simp [List.find?, hs]
      rw [hfind]
      by_cases hlen : o.read.1.length = 0
      · have := ih (w.emit (.sleep 100))
          (by rw [ctxDone_congr ctx w _ (by simp [World.emit, cancelled])]; exact hd)
        simp only [addPrefixLoop, hd, hs, hlen, Bool.false_eq_true, if_false, if_true]
        exact this
      · cases hr : o.read.2 with
        | none =>
          have := ih (logAppPrint file 212 o.now o.nowSub (pathBase pipe ++ " " ++ o.read.1) w)
            (by rw [ctxDone_congr ctx w _ (logAppPrint_cancelled _ _ _ _ _ _)]; exact hd)
          simp only [addPrefixLoop, hd, hs, hlen, hr, Bool.false_eq_true, if_false]
          rw [logAppPrint_cancelList] at this
          exact this
        | some err =>
          have := ih (w.emit (.stdout ("READ err: " ++ err ++ "\n")))
            (by rw [ctxDone_congr ctx w _ (by simp [World.emit, cancelled])]; exact hd)
          simp only [addPrefixLoop, hd, hs, hlen, hr, Bool.false_eq_true, if_false]
          exact this
    · simp [List.find?, addPrefixLoop, hd, hs, defers_cancelList, del_cancelList, World.emit]

/-- A loop that is still running after `pre` goes on with what follows. -/
theorem addPrefixLoop_append (file : String) (ctx : Nat) (pipe : String) :
    ∀ (pre post : List Obs) (w : World),
    (addPrefixLoop file ctx pipe pre w).1 = .running →
    addPrefixLoop file ctx pipe (pre ++ post) w
      = addPrefixLoop file ctx pipe post (addPrefixLoop file ctx pipe pre w).2 := by
  intro pre
  induction pre with
  | nil => intro post w _; rfl
  | cons o rest ih =>
    intro post w h
    cases hd : ctxDone ctx w
    · cases hs : o.stat.isNotExist
      · by_cases hlen : o.read.1.length = 0
        · simp only [List.cons_append, addPrefixLoop, hd, hs, hlen, Bool.false_eq_true, if_false,
            if_true] at h ⊢
          exact ih post _ h
        · cases hr : o.read.2 with
          | none =>
            simp only [List.cons_append, addPrefixLoop, hd, hs, hlen, hr, Bool.false_eq_true,
              if_false] at h ⊢
            exact ih post _ h
          | some err =>
            simp only [List.cons_append, addPrefixLoop, hd, hs, hlen, hr, Bool.false_eq_true,
              if_false] at h ⊢
            exact ih post _ h
      · simp [addPrefixLoop, hd, hs] at h
    · simp [addPrefixLoop, hd] at h

/-- The configured application logger is in a state of its configuration. -/
theorem isLogApp_config (debug time copy : Bool) :
    isLogApp debug time copy (logAppConfig debug time copy) := by
  cases debug <;> cases time <;> cases copy <;>
    simp [isLogApp, logAppConfig, appFlag, nafderLogger.EnableDebug,
      nafderLogger.EnableTimestamp]

/-- The header `log` writes under the flags of the application logger. -/
theorem formatHeader_appFlag (pfx : String) (time : Bool) (now : Time) :
    formatHeader pfx (appFlag time) now = (if time then stamp now else "") ++ pfx := by
  have h1 : (64 : Nat) &&& 64 = 64 := by decide
  have h2 : (64 : Nat) &&& 1 = 0 := by decide
  have h3 : (64 : Nat) &&& 2 = 0 := by decide
  have h4 : ((1 : Nat) ||| 2 ||| 64) &&& 64 = 64 := by decide
  have h5 : ((1 : Nat) ||| 2 ||| 64) &&& 1 = 1 := by decide
  have h6 : ((1 : Nat) ||| 2 ||| 64) &&& 2 = 2 := by decide
  cases time
  · simp [formatHeader, appFlag, Lmsgprefix, Ldate, Ltime, h1, h2, h3]
  · simp [formatHeader, appFlag, Lmsgprefix, Ldate, Ltime, LstdFlags, stamp, String.append_assoc,
      h4, h5, h6]

/-- No newline is added to a message that ends in one. -/
theorem Output_of_newline (l : Logger) (now : Time) (s : String)
    (h : s.data.getLast? = some '\n') :
    l.Output now s = formatHeader l.pfx l.flag now ++ s := by
  unfold Logger.Output
  have hne : s.data ≠ [] := by
    intro h0; rw [h0] at h; simp at h
  simp [h, hne]

/-- The text passed to `logApp.Print` ends in a newline when the line does. -/
theorem getLast_line (b l : String) (h : l.data.getLast? = some '\n') :
    (b ++ " " ++ l).data.getLast? = some '\n' := by
  rw [String.data_append, List.getLast?_append, h]
  rfl

/-- The caller location set as header when debug is on. -/
theorem caller_text (file : String) :
    file ++ ":" ++ toString 212 ++ ": " = file ++ ":212: " := by
  rw [String.append_assoc, String.append_assoc]
  rfl

/-- What `Print` writes for a message ending in a newline, in every state of the
application logger: each logger writes its own clock reading. -/
theorem Print_isLogApp (debug time copy : Bool) (l : nafderLogger) (file : String)
    (now nowSub : Time) (s : String) (hl : isLogApp debug time copy l)
    (hs : s.data.getLast? = some '\n') :
    (l.Print file 212 now nowSub s).2.1 = appHeader debug time file now ++ s ∧
    (l.Print file 212 now nowSub s).2.2
      = if copy then some (appHeader debug time file nowSub ++ s) else none := by
  obtain ⟨hd, hp, hf, hmp, hsub, hsubs⟩ := hl
  cases hsome : l.sub with
  | none =>
    have hc : copy = false := by rw [← hsub, hsome]; rfl
    subst hc
    cases debug
    · have hmain := hmp rfl
      simp [nafderLogger.Print, hsome, hd, hp, hf, hmain, Output_of_newline _ _ _ hs,
        formatHeader_appFlag, appHeader]
    · simp [nafderLogger.Print, hsome, hd, hp, hf, Output_of_newline _ _ _ hs,
        formatHeader_appFlag, appHeader, caller_text]
  | some sub =>
    have hc : copy = true := by rw [← hsub, hsome]; rfl
    subst hc
    obtain ⟨hsf, hsp⟩ := hsubs sub hsome
    cases debug
    · have hmain := hmp rfl
      have hsubp := hsp rfl
      simp [nafderLogger.Print, hsome, hd, hp, hf, hmain, hsf, hsubp,
        Output_of_newline _ _ _ hs, formatHeader_appFlag, appHeader]
    · simp [nafderLogger.Print, hsome, hd, hp, hf, hsf, Output_of_newline _ _ _ hs,
        formatHeader_appFlag, appHeader, caller_text]

/-- A call of `Print` keeps the application logger in the states of its configuration. -/
theorem Print_keeps_isLogApp (debug time copy : Bool) (l : nafderLogger) (file : String)
    (now nowSub : Time) (s : String) (hl : isLogApp debug time copy l) :
    isLogApp debug time copy (l.Print file 212 now nowSub s).1 := by
  obtain ⟨hd, hp, hf, hmp, hsub, hsubs⟩ := hl
  cases hsome : l.sub with
  | none =>
    have hc : copy = false := by rw [← hsub, hsome]; rfl
    subst hc
    cases debug
    · have hmain := hmp rfl
      simp [nafderLogger.Print, hsome, hd, isLogApp, hp, hf, hmain]
    · simp [nafderLogger.Print, hsome, hd, isLogApp, hp, hf]
  | some sub =>
    have hc : copy = true := by rw [← hsub, hsome]; rfl
    subst hc
    obtain ⟨hsf, hsp⟩ := hsubs sub hsome
    cases debug
    · have hmain := hmp rfl
      have hsubp := hsp rfl
      simp [nafderLogger.Print, hsome, hd, isLogApp, hp, hf, hmain, hsf, hsubp]
    · simp [nafderLogger.Print, hsome, hd, isLogApp, hp, hf, hsf]

/-- The reader loop keeps the application logger in the states of its configuration. -/
theorem addPrefixLoop_isLogApp (debug time copy : Bool) (file : String) (ctx : Nat)
    (pipe : String) :
    ∀ (obs : List Obs) (w : World), isLogApp debug time copy w.logApp →
      isLogApp debug time copy (addPrefixLoop file ctx pipe obs w).2.logApp := by
  intro obs
  induction obs with
  | nil => intro w h; exact h
  | cons o rest ih =>
    intro w h
    cases hd : ctxDone ctx w
    · cases hs : o.stat.isNotExist
      · by_cases hlen : o.read.1.length = 0
        · simp only [addPrefixLoop, hd, hs, hlen, Bool.false_eq_true, if_false, if_true]
          exact ih _ h
        · cases hr : o.read.2 with
          | none =>
            simp only [addPrefixLoop, hd, hs, hlen, hr, Bool.false_eq_true, if_false]
            apply ih
            rw [logAppPrint_logApp]
            exact Print_keeps_isLogApp debug time copy _ _ _ _ _ h
          | some err =>
            simp only [addPrefixLoop, hd, hs, hlen, hr, Bool.false_eq_true, if_false]
            exact ih _ h
      · simp only [addPrefixLoop, hd, hs, Bool.false_eq_true, if_false, if_true]
        show isLogApp debug time copy (checkAndDelCancelListAndCancel pipe _).2.logApp
        rw [del_logApp]
        exact h
    · simp only [addPrefixLoop, hd, if_true]
      exact h

/-! ## No operation of the program invokes a cancel function; un-stat-able entries -/

/-- The scanner loop invokes no cancel function, whether it returns or panics. -/
theorem parseDirLoop_cancelled (join : String → String → String) (stat : String → StatResult)
    (dir : String) : ∀ (files : List String) (w : World),
    cancelled (parseDirLoop join stat dir files w).world.trace = cancelled w.trace := by
  intro files
  induction files with
  | nil => intro w; rfl
  | cons name rest ih =>
    intro w
    cases hs : (stat (join dir name)).isOtherErr
    · rw [parseDirLoop_cons join stat dir name rest w hs]
      split
      · rw [ih, tryLaunch_cancelled]; simp [World.emit, cancelled]
      · rw [ih]; simp [World.emit, cancelled]
    · rw [parseDirLoop_cons_panic join stat dir name rest w hs]
      rfl

/-- A run of the scanner invokes no cancel function. -/
theorem parseDir_cancelled (join : String → String → String) (stat : String → StatResult)
    (entries : Except String (List String)) (dir : String) (w : World) :
    cancelled (parseDir join stat entries dir w).world.trace = cancelled w.trace := by
  cases entries with
  | error err => simp [parseDir, readDir, Except.map, Run.world, World.emit, cancelled]
  | ok names =>
    rw [parseDir_ok, parseDirLoop_cancelled]
    simp [World.emit, cancelled]

/-- The handling of an event invokes no cancel function. -/
theorem handleEvent_cancelled (stat : String → StatResult) (e : FsEvent) (w : World) :
    cancelled (handleEvent stat e w).world.trace = cancelled w.trace := by
  obtain ⟨name, op⟩ := e
  by_cases hc : op = opCreate
  · subst hc
    cases hst : (stat name).isOtherErr
    · cases hp : (stat name).namedPipe
      · simp only [handleEvent, opCreate, opRemove]
        rw [if_pos trivial, if_neg (show ¬ (1 : Nat) = 4 by decide), isPipe_of_stat _ _ _ hst, hp]
        simp [Run.world, World.emit, cancelled]
      · rw [handleEvent_create stat name w hp]
        simp only [Run.world]
        rw [tryLaunch_cancelled]
        simp [World.emit, cancelled]
    · cases hs : stat name with
      | otherErr msg =>
        simp only [handleEvent, opCreate, opRemove]
        rw [if_pos trivial, if_neg (show ¬ (1 : Nat) = 4 by decide), hs, isPipe_otherErr]
        rfl
      | ok mode => rw [hs] at hst; simp [StatResult.isOtherErr] at hst
      | notExist => rw [hs] at hst; simp [StatResult.isOtherErr] at hst
  · simp only [handleEvent, hc, if_false, Run.world]
    split
    · exact del_cancelled _ _
    · rfl

/-- The watcher invokes no cancel function. -/
theorem handleInotify_cancelled (stat : String → StatResult) :
    ∀ (msgs : List WatcherMsg) (w : World),
    cancelled (handleInotify stat msgs w).world.trace = cancelled w.trace := by
  intro msgs
  induction msgs with
  | nil => intro w; rfl
  | cons m rest ih =>
    intro w
    cases m with
    | event e =>
      have he := handleEvent_cancelled stat e w
      simp only [handleInotify]
      cases hr : handleEvent stat e w with
      | error err => rw [hr] at he; exact he
      | ok w1 => rw [hr] at he; simp only []; rw [ih]; exact he
    | eventsClosed => rfl
    | errorsClosed => rfl
    | error err => simp [handleInotify, Run.world, World.emit, cancelled]

/-- The reader invokes no cancel function. -/
theorem addPrefix_cancelled (file : String) (ctx : Nat) (openErr : Option String)
    (obs : List Obs) (pipe : String) (w : World) :
    cancelled (addPrefix file ctx openErr obs pipe w).2.trace = cancelled w.trace := by
  cases openErr with
  | some err => simp only [addPrefix]; rw [del_cancelled]; simp [World.emit, cancelled]
  | none => simp only [addPrefix]; rw [addPrefixLoop_cancelled]; simp [World.emit, cancelled]

/-- A directory with an entry whose stat fails with an error other than "does not
exist" makes the scanner panic. -/
theorem parseDirLoop_panics (join : String → String → String) (stat : String → StatResult)
    (dir : String) : ∀ (files : List String) (w : World),
    (∃ name ∈ files, (stat (join dir name)).isOtherErr = true) →
    ∃ w1, parseDirLoop join stat dir files w = .error (nilDereference, w1) := by
  intro files
  induction files with
  | nil => intro w h; simp at h
  | cons name rest ih =>
    intro w h
    cases hs : (stat (join dir name)).isOtherErr
    · have hrest : ∃ n ∈ rest, (stat (join dir n)).isOtherErr = true := by
        obtain ⟨n, hn, hbad⟩ := h
        rcases List.mem_cons.mp hn with rfl | hn
        · rw [hs] at hbad; cases hbad
        · exact ⟨n, hn, hbad⟩
      rw [parseDirLoop_cons join stat dir name rest w hs]
      split
      · exact ih _ hrest
      · exact ih _ hrest
    · exact ⟨w, parseDirLoop_cons_panic join stat dir name rest w hs⟩

/-- A directory with an un-stat-able entry makes `parseDir` panic. -/
theorem parseDir_panics (join : String → String → String) (stat : String → StatResult)
    (dir : String) (entries : List String) (w : World)
    (h : ∃ name ∈ entries, (stat (join dir name)).isOtherErr = true) :
    ∃ w1, parseDir join stat (.ok entries) dir w = .error (nilDereference, w1) := by
  rw [parseDir_ok]
  apply parseDirLoop_panics
  obtain ⟨n, hn, hbad⟩ := h
  exact ⟨n, (sortNames_perm entries).mem_iff.mpr hn, hbad⟩

/-! ## The scanner on directories whose entries can all be stat'ed -/

/-- The scanner on a directory with distinct paths all of whose entries can be stat'ed
or have vanished: it returns; the readers it launches are, in the order of the sorted
listing, those of the entries that are named pipes and have no entry in the registry;
afterwards a path has an entry exactly when it had one before or is a named pipe of the
directory; and a second run on the same directory launches nothing. -/
theorem parseDir_spec (join : String → String → String) (stat : String → StatResult)
    (dir : String) (entries : List String) (w : World)
    (hstat : ∀ name ∈ entries, (stat (join dir name)).isOtherErr = false)
    (hnodup : (entries.map (join dir)).Nodup) :
    ∃ w1, parseDir join stat (.ok entries) dir w = .ok w1 ∧
      (launched w1.trace).map Prod.snd = (launched w.trace).map Prod.snd ++
        ((sortNames entries).map (join dir)).filter
          (fun q => (stat q).namedPipe && !(w.cancelList q).isSome) ∧
      (∀ q, (w1.cancelList q).isSome
        = ((w.cancelList q).isSome ||
          (decide (q ∈ entries.map (join dir)) && (stat q).namedPipe))) ∧
      ∃ w2, parseDir join stat (.ok entries) dir w1 = .ok w2 ∧
        launched w2.trace = launched w1.trace := by
  have hperm := sortNames_perm entries
  have hstat2 : ∀ name ∈ sortNames entries, (stat (join dir name)).isOtherErr = false :=
    fun name hn => hstat name (hperm.mem_iff.mp hn)
  have hnodup2 : ((sortNames entries).map (join dir)).Nodup :=
    ((hperm.map (join dir)).nodup_iff).mpr hnodup
  have hmem : ∀ q, decide (q ∈ (sortNames entries).map (join dir))
      = decide (q ∈ entries.map (join dir)) := by
    intro q
    rw [decide_eq_decide]
    exact (hperm.map (join dir)).mem_iff
  obtain ⟨w1, hrun, hkeys, -, -, hlaunch, -⟩ :=
    parseDirLoop_spec join stat dir (sortNames entries)
      (w.emit (.logDebug (sprintln ["Parsing " ++ dir]))) hstat2
  obtain ⟨w2, hrun2, -, -, -, hlaunch2, l, hl⟩ :=
    parseDirLoop_spec join stat dir (sortNames entries)
      (w1.emit (.logDebug (sprintln ["Parsing " ++ dir]))) hstat2
  have hemit : ∀ v : World,
      launched (v.emit (.logDebug (sprintln ["Parsing " ++ dir]))).trace = launched v.trace := by
    intro v; simp [World.emit, launched]
  refine ⟨w1, by rw [parseDir_ok, hrun], ?_, ?_, w2, by rw [parseDir_ok, hrun2], ?_⟩
  · rw [hlaunch hnodup2, hemit]
    rfl
  · intro q
    rw [hkeys q, emit_cancelList, hmem q]
  · have hnone : ((sortNames entries).map (join dir)).filter (fun q => (stat q).namedPipe &&
        !((w1.emit (.logDebug (sprintln ["Parsing " ++ dir]))).cancelList q).isSome) = [] := by
      rw [List.filter_eq_nil_iff]
      intro q hq
      rw [emit_cancelList, hkeys q]
      simp only [emit_cancelList] at *
      cases hp : (stat q).namedPipe <;> simp [hq]
    have h2 := hlaunch2 hnodup2
    rw [hnone, List.append_nil, hl, List.map_append] at h2
    have hnil : l = [] := by
      have := congrArg List.length h2
      simp only [List.length_append, List.length_map] at this
      exact List.eq_nil_of_length_eq_zero (by omega)
    rw [hl, hnil, List.append_nil, hemit]

/-- The scanner at a concrete input: two named pipes and a regular file, empty registry. -/
theorem parseDir_spec_witness :
    ∃ w1, parseDir joinDemo statDemo (.ok ["notes.txt", "app2", "app1"]) "/pipes" worldEmpty
        = .ok w1 ∧
      (launched w1.trace).map Prod.snd = (launched worldEmpty.trace).map Prod.snd ++
        ((sortNames ["notes.txt", "app2", "app1"]).map (joinDemo "/pipes")).filter
          (fun q => (statDemo q).namedPipe && !(worldEmpty.cancelList q).isSome) ∧
      (∀ q, (w1.cancelList q).isSome
        = ((worldEmpty.cancelList q).isSome ||
          (decide (q ∈ ["notes.txt", "app2", "app1"].map (joinDemo "/pipes")) &&
            (statDemo q).namedPipe))) ∧
      ∃ w2, parseDir joinDemo statDemo (.ok ["notes.txt", "app2", "app1"]) "/pipes" w1 = .ok w2 ∧
        launched w2.trace = launched w1.trace :=
  parseDir_spec joinDemo statDemo "/pipes" ["notes.txt", "app2", "app1"] worldEmpty
    (by decide) (by decide)

/-! ## The properties of the specification, C1 to C10 -/

/-- C1, evaluated on the code: with `/pipes/app1` registered under the cancel function
of context 0, `checkAndDelCancelListAndCancel` returns true and removes the entry, but
the trace afterwards holds no invocation of a cancel function: the handle is not
invoked. -/
theorem C1_cancel_not_invoked :
    (checkAndDelCancelListAndCancel "/pipes/app1" worldOne).1 = true ∧
    worldOne.cancelList "/pipes/app1" = some (some 0) ∧
    (checkAndDelCancelListAndCancel "/pipes/app1" worldOne).2.cancelList "/pipes/app1" = none ∧
    cancelled (checkAndDelCancelListAndCancel "/pipes/app1" worldOne).2.trace = [] := by
  refine ⟨?_, ?_, ?_, ?_⟩
  · rw [del_fst]; decide
  · decide
  · rw [del_cancelList]; decide
  · rw [del_cancelled]; decide

/-- C2: `checkAndAddCancelList pipe cancel` returns false and leaves the registry as it
was when `pipe` has an entry; otherwise it returns true, and afterwards the registry
maps `pipe` to `cancel` and every other path to what it was mapped to before. -/
theorem C2_checkAndAddCancelList_spec (pipe : String) (cancel : CancelFunc) (w : World) :
    ((w.cancelList pipe).isSome = true →
      (checkAndAddCancelList pipe cancel w).1 = false ∧
      (checkAndAddCancelList pipe cancel w).2.cancelList = w.cancelList) ∧
    (w.cancelList pipe = none →
      (checkAndAddCancelList pipe cancel w).1 = true ∧
      (checkAndAddCancelList pipe cancel w).2.cancelList pipe = some cancel ∧
      ∀ q, q ≠ pipe → (checkAndAddCancelList pipe cancel w).2.cancelList q = w.cancelList q) := by
  rw [add_fst, add_cancelList]
  constructor
  · intro h
    simp [h]
  · intro h
    simp only [h, Option.isSome_none, Bool.not_false, Bool.false_eq_true, if_false, true_and]
    constructor
    · simp [CancelMap.set]
    · intro q hq
      simp [CancelMap.set, hq]

/-- C3: when `p` has no entry and two callers run `checkAndAddCancelList` on `p` one
after the other (the mutex admits no other interleaving), in either order, the first
call returns true, the second returns false, and the registry afterwards is the
registry before with `p` mapped to the handle of the call that returned true. When
both callers run the code of `parseDir` and `handleInotify` that registers and
launches (`tryLaunch`), one reader is launched for `p`. -/
theorem C3_register_race (p : String) (c1 c2 : CancelFunc) (w : World)
    (h : w.cancelList p = none) :
    ((checkAndAddCancelList p c1 w).1 = true ∧
      (checkAndAddCancelList p c2 (checkAndAddCancelList p c1 w).2).1 = false ∧
      (checkAndAddCancelList p c2 (checkAndAddCancelList p c1 w).2).2.cancelList
        = w.cancelList.set p c1) ∧
    ((checkAndAddCancelList p c2 w).1 = true ∧
      (checkAndAddCancelList p c1 (checkAndAddCancelList p c2 w).2).1 = false ∧
      (checkAndAddCancelList p c1 (checkAndAddCancelList p c2 w).2).2.cancelList
        = w.cancelList.set p c2) ∧
    launched (tryLaunch p (tryLaunch p w)).trace = launched w.trace ++ [(w.nextCtx, p)] := by
  refine ⟨?_, ?_, ?_⟩
  · simp [add_fst, add_cancelList, h, CancelMap.set]
  · simp [add_fst, add_cancelList, h, CancelMap.set]
  · rw [tryLaunch_launched, tryLaunch_launched, tryLaunch_cancelList]
    simp [h, CancelMap.set]

/-- C3 at a concrete input: both orders on the empty registry. -/
theorem C3_register_race_witness :
    ((checkAndAddCancelList "/pipes/app1" (some 0) worldEmpty).1 = true ∧
      (checkAndAddCancelList "/pipes/app1" (some 1)
        (checkAndAddCancelList "/pipes/app1" (some 0) worldEmpty).2).1 = false ∧
      (checkAndAddCancelList "/pipes/app1" (some 1)
        (checkAndAddCancelList "/pipes/app1" (some 0) worldEmpty).2).2.cancelList
        = worldEmpty.cancelList.set "/pipes/app1" (some 0)) ∧
    ((checkAndAddCancelList "/pipes/app1" (some 1) worldEmpty).1 = true ∧
      (checkAndAddCancelList "/pipes/app1" (some 0)
        (checkAndAddCancelList "/pipes/app1" (some 1) worldEmpty).2).1 = false ∧
      (checkAndAddCancelList "/pipes/app1" (some 0)
        (checkAndAddCancelList "/pipes/app1" (some 1) worldEmpty).2).2.cancelList
        = worldEmpty.cancelList.set "/pipes/app1" (some 1)) ∧
    launched (tryLaunch "/pipes/app1" (tryLaunch "/pipes/app1" worldEmpty)).trace
      = launched worldEmpty.trace ++ [(worldEmpty.nextCtx, "/pipes/app1")] :=
  C3_register_race "/pipes/app1" (some 0) (some 1) worldEmpty rfl

/-- C4: of two calls of `checkAndDelCancelListAndCancel p` in a row, the first returns
true exactly when `p` had an entry; the second returns false, leaves the registry as
the first call left it and invokes no cancel function; over the two calls no cancel
function is invoked more than once. -/
theorem C4_cancelAndRemove_twice (p : String) (w : World) :
    ((checkAndDelCancelListAndCancel p w).1 = true ↔ (w.cancelList p).isSome = true) ∧
    (checkAndDelCancelListAndCancel p (checkAndDelCancelListAndCancel p w).2).1 = false ∧
    (checkAndDelCancelListAndCancel p (checkAndDelCancelListAndCancel p w).2).2.cancelList
      = (checkAndDelCancelListAndCancel p w).2.cancelList ∧
    cancelled (checkAndDelCancelListAndCancel p (checkAndDelCancelListAndCancel p w).2).2.trace
      = cancelled (checkAndDelCancelListAndCancel p w).2.trace ∧
    ∀ c, (cancelled
        (checkAndDelCancelListAndCancel p (checkAndDelCancelListAndCancel p w).2).2.trace).count c
      ≤ (cancelled w.trace).count c + 1 := by
  refine ⟨?_, ?_, ?_, ?_, ?_⟩
  · rw [del_fst]
  · rw [del_fst, del_cancelList]
    simp [CancelMap.delete]
  · rw [del_cancelList, del_cancelList]
    funext q
    simp only [CancelMap.delete]
    split <;> rfl
  · rw [del_cancelled]
  · intro c
    rw [del_cancelled, del_cancelled]
    exact Nat.le_succ _

/-- C5, as stated, fails: with debug on, for the line `hello` read from `/pipes/app1`
the application logger writes the caller location before the base name. -/
theorem C5_debug_counterexample :
    (addPrefix "/src/main.go" 0 none [obsRead "hello\n" none] "/pipes/app1" worldDebug).2.trace
      = [.logInfo "Reading /pipes/app1\n", .appMain "/src/main.go:212: app1 hello\n"] ∧
    "/src/main.go:212: app1 hello\n" ≠ pathBase "/pipes/app1" ++ " " ++ "hello\n" := by
  decide

/-- C5, amended: in every state of the application logger under its configuration
(debug, timestamp, copy), before or after any number of lines printed by any reader,
when the reader is not cancelled, has not returned on the observations `pre`, and the
next read gives the line `l` (ending in a newline) without error, the reader makes the
application logger write exactly `appHeader ++ base(p) ++ " " ++ l` to its sink and,
when there is a copy, the same with the clock reading of the copy to the copy.
`appHeader` is the date and time when the timestamp is on followed by `file:212: ` when
debug is on; with both off the text is exactly `base(p) ++ " " ++ l`. -/
theorem C5_emitted_text (debug time copy : Bool) (file : String) (ctx : Nat)
    (pipe l : String) (pre : List Obs) (o : Obs) (w : World)
    (hw : isLogApp debug time copy w.logApp)
    (hctx : ctx ∉ cancelled w.trace)
    (hpre : (addPrefix file ctx none pre pipe w).1 = .running)
    (hstat : o.stat.isNotExist = false)
    (hread : o.read = (l, none)) (hl : l.data.getLast? = some '\n') :
    (addPrefix file ctx none (pre ++ [o]) pipe w).2.trace
      = (addPrefix file ctx none pre pipe w).2.trace ++
        (.appMain (appHeader debug time file o.now ++ (pathBase pipe ++ " " ++ l)) ::
          if copy then
            [.appSub (appHeader debug time file o.nowSub ++ (pathBase pipe ++ " " ++ l))]
          else []) ∧
    appHeader false false file o.now ++ (pathBase pipe ++ " " ++ l) = pathBase pipe ++ " " ++ l ∧
    appHeader false false file o.nowSub ++ (pathBase pipe ++ " " ++ l)
      = pathBase pipe ++ " " ++ l := by
  refine ⟨?_, by simp [appHeader], by simp [appHeader]⟩
  simp only [addPrefix] at hpre ⊢
  rw [addPrefixLoop_append file ctx pipe pre [o] _ hpre]
  have hinv : isLogApp debug time copy (addPrefixLoop file ctx pipe pre
      (w.emit (.logInfo (sprintln ["Reading", pipe])))).2.logApp := by
    apply addPrefixLoop_isLogApp
    exact hw
  have hdone : ctxDone ctx (addPrefixLoop file ctx pipe pre
      (w.emit (.logInfo (sprintln ["Reading", pipe])))).2 = false := by
    rw [ctxDone_congr ctx w _ (by
      rw [addPrefixLoop_cancelled]; simp [World.emit, cancelled])]
    simp [ctxDone, hctx]
  have hlen : ¬ o.read.1.length = 0 := by
    rw [hread]
    intro h0
    have : l.data = [] := List.eq_nil_of_length_eq_zero h0
    rw [this] at hl
    simp at hl
  have hr2 : o.read.2 = none := by rw [hread]
  obtain ⟨hmain, hsub⟩ := Print_isLogApp debug time copy _ file o.now o.nowSub
    (pathBase pipe ++ " " ++ l) hinv (getLast_line (pathBase pipe) l hl)
  simp only [addPrefixLoop, hdone, hstat, hlen, hr2, Bool.false_eq_true, if_false]
  rw [logAppPrint_trace, hread, hmain, hsub]
  cases copy <;> simp

/-- C5 (amended) at a concrete input: debug, timestamp and copy are on and another
reader has printed before; after an empty read the reader of `/pipes/app1` reads the
line `hello`, and the copy logger reads the clock a second after the main logger. -/
theorem C5_emitted_text_witness :
    (addPrefix "/src/main.go" 0 none ([obsRead "" (some "EOF")] ++ [obsRead "hello\n" none])
        "/pipes/app1" worldStamped).2.trace
      = (addPrefix "/src/main.go" 0 none [obsRead "" (some "EOF")] "/pipes/app1"
          worldStamped).2.trace ++
        (.appMain (appHeader true true "/src/main.go" (obsRead "hello\n" none).now
            ++ (pathBase "/pipes/app1" ++ " " ++ "hello\n")) ::
          if true then
            [.appSub (appHeader true true "/src/main.go" (obsRead "hello\n" none).nowSub
              ++ (pathBase "/pipes/app1" ++ " " ++ "hello\n"))]
          else []) ∧
    appHeader false false "/src/main.go" (obsRead "hello\n" none).now
        ++ (pathBase "/pipes/app1" ++ " " ++ "hello\n")
      = pathBase "/pipes/app1" ++ " " ++ "hello\n" ∧
    appHeader false false "/src/main.go" (obsRead "hello\n" none).nowSub
        ++ (pathBase "/pipes/app1" ++ " " ++ "hello\n")
      = pathBase "/pipes/app1" ++ " " ++ "hello\n" :=
  C5_emitted_text true true true "/src/main.go" 0 "/pipes/app1" "hello\n"
    [obsRead "" (some "EOF")] (obsRead "hello\n" none) worldStamped
    (Print_keeps_isLogApp true true true _ _ _ _ _ (isLogApp_config true true true))
    (by decide) (by decide) rfl rfl (by decide)

/-- C6, evaluated on the code: the directory `/pipes` holds the named pipe `app1` and
`aloop`, a symbolic link to itself, and the registry is empty. `ioutil.ReadDir` lists
`aloop` before `app1`; `parseDir` panics in `isPipe` at `aloop`, and in the state of the
panic no reader has been launched and `/pipes/app1` has no entry. -/
theorem C6_parseDir_panics_before_the_pipe :
    readDir (.ok ["app1", "aloop"]) = .ok ["aloop", "app1"] ∧
    (statDemo (joinDemo "/pipes" "app1")).namedPipe = true ∧
    worldEmpty.cancelList (joinDemo "/pipes" "app1") = none ∧
    ∃ w1, parseDir joinDemo statDemo (.ok ["app1", "aloop"]) "/pipes" worldEmpty
        = .error (nilDereference, w1) ∧
      launched w1.trace = [] ∧
      w1.cancelList (joinDemo "/pipes" "app1") = none := by
  refine ⟨rfl, by decide, rfl, _, rfl, ?_, ?_⟩
  · decide
  · rfl

/-- C7, evaluated on the code: the reader of `/pipes/app1` gets `abc` together with the
error `EOF` (a writer closed the pipe in the middle of a line), prints the error, and
iterates again: the next line is read and emitted, and the reader has not returned. -/
theorem C7_reader_goes_on_after_read_error :
    addPrefixLoop "/src/main.go" 0 "/pipes/app1" [obsRead "abc" (some "EOF")] worldOne
      = addPrefixLoop "/src/main.go" 0 "/pipes/app1" []
          (worldOne.emit (.stdout "READ err: EOF\n")) ∧
    (addPrefix "/src/main.go" 0 none [obsRead "abc" (some "EOF"), obsRead "x\n" none]
      "/pipes/app1" worldOne).1 = .running ∧
    (addPrefix "/src/main.go" 0 none [obsRead "abc" (some "EOF"), obsRead "x\n" none]
      "/pipes/app1" worldOne).2.trace
      = [.logInfo "Reading /pipes/app1\n", .stdout "READ err: EOF\n", .appMain "app1 x\n"] := by
  refine ⟨rfl, ?_, ?_⟩ <;> decide

/-- C8: when `p` is a named pipe, the watcher handles a create event for `p` and then a
remove event for `p` without failing; afterwards `p` has no entry, every other path is
mapped as before, and one reader was launched for `p` when `p` had no entry before and
none otherwise. A remove event for a path without entry leaves the registry as it
was, invokes no cancel function and launches nothing. -/
theorem C8_create_then_remove (stat : String → StatResult) (p : String) (w : World)
    (hp : (stat p).namedPipe = true) :
    ∃ w1, handleInotify stat [.event ⟨p, opCreate⟩, .event ⟨p, opRemove⟩] w = .ok w1 ∧
      w1.cancelList p = none ∧
      (∀ q, q ≠ p → w1.cancelList q = w.cancelList q) ∧
      launched w1.trace
        = launched w.trace ++ (if (w.cancelList p).isSome then [] else [(w.nextCtx, p)]) ∧
      ∀ q, w.cancelList q = none →
        ∃ w2, handleInotify stat [.event ⟨q, opRemove⟩] w = .ok w2 ∧
          w2.cancelList = w.cancelList ∧
          cancelled w2.trace = cancelled w.trace ∧
          launched w2.trace = launched w.trace := by
  simp only [handleInotify, handleEvent_create stat p w hp, handleEvent_remove]
  refine ⟨_, rfl, ?_, ?_, ?_, ?_⟩
  · rw [del_cancelList]; simp [CancelMap.delete]
  · intro q hq
    rw [del_cancelList, tryLaunch_cancelList, emit_cancelList]
    simp only [CancelMap.delete, if_neg hq]
    cases h : (w.cancelList p).isSome <;> simp [CancelMap.set, hq]
  · rw [del_launched, tryLaunch_launched, emit_cancelList]
    simp [World.emit, launched]
  · intro q hq
    exact ⟨_, rfl, by rw [del_cancelList, delete_of_none _ _ hq], del_cancelled q w,
      del_launched q w⟩

/-- C8 at a concrete input: a create and a remove event for the named pipe `/pipes/app1`
on the empty registry. -/
theorem C8_create_then_remove_witness :
    ∃ w1, handleInotify statDemo
        [.event ⟨"/pipes/app1", opCreate⟩, .event ⟨"/pipes/app1", opRemove⟩] worldEmpty = .ok w1 ∧
      w1.cancelList "/pipes/app1" = none ∧
      (∀ q, q ≠ "/pipes/app1" → w1.cancelList q = worldEmpty.cancelList q) ∧
      launched w1.trace = launched worldEmpty.trace ++
        (if (worldEmpty.cancelList "/pipes/app1").isSome then []
          else [(worldEmpty.nextCtx, "/pipes/app1")]) ∧
      ∀ q, worldEmpty.cancelList q = none →
        ∃ w2, handleInotify statDemo [.event ⟨q, opRemove⟩] worldEmpty = .ok w2 ∧
          w2.cancelList = worldEmpty.cancelList ∧
          cancelled w2.trace = cancelled worldEmpty.trace ∧
          launched w2.trace = launched worldEmpty.trace :=
  C8_create_then_remove statDemo "/pipes/app1" worldEmpty (by decide)

/-- C9: in a state in which the context of the reader is cancelled only if the entry of
`pipe` has been removed, `addPrefix` returns exactly when the open fails, or the
cancellation signal is observed, or the path is found not to exist; and whenever it
returns, the registry afterwards has no entry for `pipe` and maps every other path as
before. The hypothesis holds in every state the program reaches: a cancel function is
invoked only at main.go 242, by the call that has just deleted the entry, and in fact
by no operation at all (`parseDir_cancelled`, `handleInotify_cancelled`,
`addPrefix_cancelled`). -/
theorem C9_no_entry_when_addPrefix_returns (file : String) (ctx : Nat) (pipe : String)
    (openErr : Option String) (obs : List Obs) (w : World)
    (hcancel : ctx ∈ cancelled w.trace → w.cancelList pipe = none) :
    ((addPrefix file ctx openErr obs pipe w).1 = .returned ↔
      (openErr.isSome = true ∨ (ctx ∈ cancelled w.trace ∧ obs ≠ []) ∨
        ∃ o ∈ obs, o.stat.isNotExist = true)) ∧
    ((addPrefix file ctx openErr obs pipe w).1 = .returned →
      (addPrefix file ctx openErr obs pipe w).2.cancelList pipe = none ∧
      ∀ q, q ≠ pipe →
        (addPrefix file ctx openErr obs pipe w).2.cancelList q = w.cancelList q) := by
  cases openErr with
  | some err =>
    simp only [addPrefix, del_cancelList, emit_cancelList, Option.isSome_some, true_or,
      iff_true, true_and]
    intro _
    exact ⟨by simp [CancelMap.delete], fun q hq => by simp [CancelMap.delete, hq]⟩
  | none =>
    have hreg : ctxDone ctx (w.emit (.logInfo (sprintln ["Reading", pipe]))) = ctxDone ctx w :=
      ctxDone_congr ctx w _ (by simp [World.emit, cancelled])
    simp only [addPrefix, Option.isSome_none, Bool.false_eq_true, false_or]
    by_cases hc : ctx ∈ cancelled w.trace
    · have hd : ctxDone ctx (w.emit (.logInfo (sprintln ["Reading", pipe]))) = true := by
        rw [hreg]; simp [ctxDone, hc]
      cases obs with
      | nil => simp [addPrefixLoop]
      | cons o rest =>
        rw [addPrefixLoop_done _ _ _ _ _ _ hd]
        refine ⟨⟨fun _ => Or.inl ⟨hc, List.cons_ne_nil _ _⟩, fun _ => rfl⟩, fun _ => ?_⟩
        exact ⟨hcancel hc, fun q _ => rfl⟩
    · have hd : ctxDone ctx (w.emit (.logInfo (sprintln ["Reading", pipe]))) = false := by
        rw [hreg]; simp [ctxDone, hc]
      have hloop := addPrefixLoop_registry file ctx pipe obs _ hd
      simp only [hc, false_and, false_or]
      cases hf : obs.find? (fun o => o.stat.isNotExist) with
      | none =>
        rw [hf] at hloop
        have hnone : ¬ ∃ o ∈ obs, o.stat.isNotExist = true := by
          rintro ⟨o, ho, hox⟩
          have := List.find?_eq_none.mp hf o ho
          exact this hox
        simp [hloop.1, hnone]
      | some o =>
        rw [hf] at hloop
        have hsome : ∃ o ∈ obs, o.stat.isNotExist = true :=
          ⟨o, List.mem_of_find?_eq_some hf, by simpa using List.find?_some hf⟩
        simp only [hloop.1, hsome, iff_true, true_and, hloop.2, emit_cancelList]
        intro _
        exact ⟨by simp [CancelMap.delete], fun q hq => by simp [CancelMap.delete, hq]⟩

/-- C9 at a concrete input: `/pipes/app1` is registered under context 0 and no cancel
function has been invoked; the reader reads a line, then finds the pipe gone, and
returns. -/
theorem C9_no_entry_when_addPrefix_returns_witness :
    ((addPrefix "/src/main.go" 0 none [obsRead "x\n" none, obsGone] "/pipes/app1" worldOne).1
        = .returned ↔
      ((none : Option String).isSome = true ∨
        (0 ∈ cancelled worldOne.trace ∧ [obsRead "x\n" none, obsGone] ≠ []) ∨
        ∃ o ∈ [obsRead "x\n" none, obsGone], o.stat.isNotExist = true)) ∧
    ((addPrefix "/src/main.go" 0 none [obsRead "x\n" none, obsGone] "/pipes/app1" worldOne).1
        = .returned →
      (addPrefix "/src/main.go" 0 none [obsRead "x\n" none, obsGone] "/pipes/app1"
        worldOne).2.cancelList "/pipes/app1" = none ∧
      ∀ q, q ≠ "/pipes/app1" →
        (addPrefix "/src/main.go" 0 none [obsRead "x\n" none, obsGone] "/pipes/app1"
          worldOne).2.cancelList q = worldOne.cancelList q) :=
  C9_no_entry_when_addPrefix_returns "/src/main.go" 0 "/pipes/app1" none
    [obsRead "x\n" none, obsGone] worldOne (fun h => absurd h (by decide))

/-- C10, evaluated on the code: when `os.Stat` fails with an error other than "does not
exist", `isPipe` does not return, it panics on the nil `FileInfo`; for every other
outcome it returns, and returns true exactly when the stat succeeded with the
named-pipe bit set. -/
theorem C10_isPipe_panics_on_other_stat_error :
    isPipe (.otherErr "permission denied") "/pipes/app1" worldEmpty
      = .error "runtime error: invalid memory address or nil pointer dereference" ∧
    (∀ (msg pipe : String) (w : World), isPipe (.otherErr msg) pipe w
      = .error "runtime error: invalid memory address or nil pointer dereference") ∧
    ∀ (st : StatResult) (pipe : String) (w : World), st.isOtherErr = false →
      ∃ w1, isPipe st pipe w = .ok (st.namedPipe, w1) :=
  ⟨rfl, isPipe_otherErr, fun st pipe w h => ⟨_, isPipe_of_stat st pipe w h⟩⟩

end Nafder
